import Mathlib

/-!
# Verification of the Banking-System ledger engine

Shallow embedding of `Banking_project.py`: the polymorphic account model
(Savings / Checking), the customer registry, the Bank (Ledger) operations
(create account, deposit, withdraw, transfer with rollback, interest
application) and the persistence codec (`to_dict` / `_load_data`).

Balances and amounts are modelled as rationals; the Python dictionaries
`Bank._customers` and `Bank._accounts` are modelled as lists of entities
keyed by their id fields (lookup finds the first match, assignment
replaces the first match or appends, exactly the observable behaviour of
a Python `dict` whose keys are the entities' own id fields).
-/

/-- The variant-specific payload of an account: `SavingsAccount` carries an
interest rate, `CheckingAccount` carries an overdraft limit. -/
inductive AccountKind where
  | savings (interest_rate : ℚ)
  | checking (overdraft_limit : ℚ)
deriving DecidableEq

/-- Shared fields of `Account` (`Banking_project.py`, `Account.__init__`)
plus the variant payload. -/
structure Account where
  account_number : String
  account_holder_id : String
  balance : ℚ
  kind : AccountKind
deriving DecidableEq

namespace Account

/-- Model of `SavingsAccount.deposit` / `CheckingAccount.deposit` (the two method
bodies are textually identical): positive amounts are added to the balance
and `True` returned, otherwise `False` with no mutation. -/
def deposit (a : Account) (amount : ℚ) : Account × Bool :=
  if amount > 0 then ({ a with balance := a.balance + amount }, true)
  else (a, false)

/-- Model of `SavingsAccount.withdraw` and `CheckingAccount.withdraw`, dispatched on
the variant: Savings requires `0 < amount <= balance`; Checking requires
`balance - amount >= -overdraft_limit` (no positivity check). -/
def withdraw (a : Account) (amount : ℚ) : Account × Bool :=
  match a.kind with
  | .savings _ =>
      if 0 < amount ∧ amount ≤ a.balance then
        ({ a with balance := a.balance - amount }, true)
      else (a, false)
  | .checking od =>
      if a.balance - amount ≥ -od then
        ({ a with balance := a.balance - amount }, true)
      else (a, false)

/-- Model of `SavingsAccount.apply_interest` (`balance += balance * rate`); on a
Checking account there is no such method, so the dispatched batch operation
leaves the account untouched. -/
def apply_interest (a : Account) : Account :=
  match a.kind with
  | .savings r => { a with balance := a.balance + a.balance * r }
  | .checking _ => a

end Account

/-- Model of `Customer.__init__`: identity, display attributes and the owned account
numbers (insertion ordered, duplicate-free by construction). -/
structure Customer where
  customer_id : String
  name : String
  address : String
  account_numbers : List String
deriving DecidableEq

namespace Customer

/-- Model of `Customer.add_account_number`: appends unless already present. -/
def add_account_number (c : Customer) (n : String) : Customer :=
  if n ∈ c.account_numbers then c
  else { c with account_numbers := c.account_numbers ++ [n] }

end Customer

/-- The Ledger's two in-memory registries (`Bank._customers`,
`Bank._accounts`), as ordered key-value collections keyed by
`customer_id` / `account_number`. -/
structure Bank where
  customers : List Customer
  accounts : List Account
deriving DecidableEq

namespace Bank

/-- Lookup `self._accounts.get(num)`: first account whose number matches. -/
def findAccount (b : Bank) (num : String) : Option Account :=
  b.accounts.find? (fun a => a.account_number == num)

/-- Lookup `self._customers.get(cid)` restricted to presence. -/
def findCustomer (b : Bank) (cid : String) : Option Customer :=
  b.customers.find? (fun c => c.customer_id == cid)

/-- Replace the first account whose number is `num` by `a2` (in-place
mutation of the object stored under that dict key). -/
def setAccount : List Account → String → Account → List Account
  | [], _, _ => []
  | a :: rest, num, a2 =>
      if a.account_number == num then a2 :: rest
      else a :: setAccount rest num a2

/-- Assignment `self._accounts[a.account_number] = a`: dict assignment, replacing the
existing entry for that key or appending a fresh one. -/
def assignAccount (l : List Account) (a : Account) : List Account :=
  if l.any (fun x => x.account_number == a.account_number) then
    setAccount l a.account_number a
  else l ++ [a]

/-- Model of `account.deposit(amount)` on the account stored under `num`, written
back into the registry; `False` (and no mutation) if the account is missing
or its deposit rejects the amount. -/
def depositIn (b : Bank) (num : String) (amount : ℚ) : Bank × Bool :=
  match b.findAccount num with
  | none => (b, false)
  | some a =>
      let r := a.deposit amount
      if r.2 then ({ b with accounts := setAccount b.accounts num r.1 }, true)
      else (b, false)

/-- Model of `account.withdraw(amount)` on the account stored under `num`, written
back into the registry. -/
def withdrawIn (b : Bank) (num : String) (amount : ℚ) : Bank × Bool :=
  match b.findAccount num with
  | none => (b, false)
  | some a =>
      let r := a.withdraw amount
      if r.2 then ({ b with accounts := setAccount b.accounts num r.1 }, true)
      else (b, false)

/-- Model of `Bank.transfer_funds`: resolve both accounts, withdraw from the source,
deposit into the destination, and on a failed destination deposit perform
the compensating `from_acc.deposit(amount)  # rollback` before returning
`False`. State threading models the Python aliasing: the destination is the
object stored under `to_num` at deposit time (the same object as the source
when the two numbers coincide). -/
def transfer_funds (b : Bank) (from_num to_num : String) (amount : ℚ) :
    Bank × Bool :=
  if (b.findAccount from_num).isSome ∧ (b.findAccount to_num).isSome then
    let w := b.withdrawIn from_num amount
    if w.2 then
      let d := w.1.depositIn to_num amount
      if d.2 then (d.1, true)
      else ((d.1.depositIn from_num amount).1, false)
    else (w.1, false)
  else (b, false)

/-- Model of `Bank.apply_all_interest`: `apply_interest` on every Savings account in
registry order (the dispatch on `isinstance(account, SavingsAccount)` is the
match inside `Account.apply_interest`). -/
def apply_all_interest (b : Bank) : Bank :=
  { b with accounts := b.accounts.map Account.apply_interest }

/-- Model of `Bank.create_account`: fails for an unknown customer or unrecognized
variant string; otherwise builds the account with the caller's initial
balance (no validation), registers it under the freshly generated number
(passed here as `fresh`, standing for `str(uuid.uuid4())`) and records the
number with the owning customer. `rate?` / `od?` model the optional kwargs,
with defaults `0.01` and `0.0`. -/
def create_account (b : Bank) (fresh customer_id account_type : String)
    (initial_balance : ℚ) (rate? od? : Option ℚ) : Bank × Option Account :=
  if (b.findCustomer customer_id).isSome then
    let acct? : Option Account :=
      if account_type == "savings" then
        some ⟨fresh, customer_id, initial_balance, .savings (rate?.getD (1/100))⟩
      else if account_type == "checking" then
        some ⟨fresh, customer_id, initial_balance, .checking (od?.getD 0)⟩
      else none
    match acct? with
    | none => (b, none)
    | some acct =>
        ({ customers := b.customers.map
             (fun c => if c.customer_id == customer_id then
                         c.add_account_number fresh
                       else c),
           accounts := assignAccount b.accounts acct }, some acct)
  else (b, none)

end Bank

/-- One `deposit` or `withdraw` call with an arbitrary amount, for stating
invariant preservation over call sequences. -/
inductive AccountOp where
  | depositOp (amount : ℚ)
  | withdrawOp (amount : ℚ)

namespace Account

/-- Run a sequence of deposit/withdraw calls against an account, keeping the
resulting state of each call (failed calls leave the account unchanged). -/
def runOps (a : Account) (ops : List AccountOp) : Account :=
  ops.foldl
    (fun a op =>
      match op with
      | .depositOp amt => (a.deposit amt).1
      | .withdrawOp amt => (a.withdraw amt).1) a

/-- The per-variant balance invariant: `balance >= 0` for Savings,
`balance >= -overdraft_limit` for Checking. -/
def invariant (a : Account) : Prop :=
  match a.kind with
  | .savings _ => 0 ≤ a.balance
  | .checking od => -od ≤ a.balance

instance (a : Account) : Decidable a.invariant := by
  unfold invariant; cases a.kind <;> infer_instance

end Account

/-! ## Persistence codec

`to_dict` serializes each entity to a record; `Bank._load_data` parses the
two JSON stores back. Fields read with `.get(key, default)` in the source
are `Option`s in the record, decoded with the source's defaults. -/

/-- The record written for a customer by `Customer.to_dict`, and read back
by `_load_data` (where `account_numbers` is fetched with default `[]`). -/
structure CustomerRecord where
  customer_id : String
  name : String
  address : String
  account_numbers : Option (List String)
deriving DecidableEq

/-- Model of `Customer.to_dict`. -/
def Customer.to_dict (c : Customer) : CustomerRecord :=
  ⟨c.customer_id, c.name, c.address, some c.account_numbers⟩

/-- The record written for an account by `to_dict`: a `type` discriminator,
the shared fields, and the variant parameter; `balance`, `interest_rate`
and `overdraft_limit` are read back with defaults on load. -/
structure AccountRecord where
  type : String
  account_number : String
  account_holder_id : String
  balance : Option ℚ
  interest_rate : Option ℚ
  overdraft_limit : Option ℚ
deriving DecidableEq

/-- Model of `SavingsAccount.to_dict` / `CheckingAccount.to_dict`. -/
def Account.to_dict (a : Account) : AccountRecord :=
  match a.kind with
  | .savings r => ⟨"savings", a.account_number, a.account_holder_id,
      some a.balance, some r, none⟩
  | .checking od => ⟨"checking", a.account_number, a.account_holder_id,
      some a.balance, none, some od⟩

namespace Bank

/-- The customer-decoding loop body of `_load_data`: build the `Customer`
and replay `add_account_number` over the stored list. -/
def loadCustomer (r : CustomerRecord) : Customer :=
  (r.account_numbers.getD []).foldl Customer.add_account_number
    ⟨r.customer_id, r.name, r.address, []⟩

/-- Replace the first customer whose id is `cid` by `c2`. -/
def setCustomer : List Customer → String → Customer → List Customer
  | [], _, _ => []
  | c :: rest, cid, c2 =>
      if c.customer_id == cid then c2 :: rest
      else c :: setCustomer rest cid c2

/-- Assignment `self._customers[c.customer_id] = c`: dict assignment by customer id. -/
def assignCustomer (l : List Customer) (c : Customer) : List Customer :=
  if l.any (fun x => x.customer_id == c.customer_id) then
    setCustomer l c.customer_id c
  else l ++ [c]

/-- Decode the whole customer store. -/
def loadCustomers (rs : List CustomerRecord) : List Customer :=
  rs.foldl (fun acc r => assignCustomer acc (loadCustomer r)) []

/-- The account-decoding branch of `_load_data`: dispatch on the `type`
discriminator, apply the `.get` defaults (`balance` 0.0, `interest_rate`
0.01, `overdraft_limit` 0.0), skip unknown discriminators. -/
def loadAccount (r : AccountRecord) : Option Account :=
  if r.type == "savings" then
    some ⟨r.account_number, r.account_holder_id, r.balance.getD 0,
      .savings (r.interest_rate.getD (1/100))⟩
  else if r.type == "checking" then
    some ⟨r.account_number, r.account_holder_id, r.balance.getD 0,
      .checking (r.overdraft_limit.getD 0)⟩
  else none

/-- Decode the whole account store (`self._accounts[number] = account`). -/
def loadAccounts (rs : List AccountRecord) : List Account :=
  rs.foldl
    (fun acc r =>
      match loadAccount r with
      | some a => assignAccount acc a
      | none => acc) []

/-- Model of `Bank._save_data`, restricted to its observable content: the two record
sequences written to the stores. -/
def save_data (b : Bank) : List CustomerRecord × List AccountRecord :=
  (b.customers.map Customer.to_dict, b.accounts.map Account.to_dict)

end Bank

/-- State of one on-disk store as seen by `_load_data`: missing
(`FileNotFoundError`), present but not valid JSON (`json.load` raises), or
parsed into records. -/
inductive FileState (α : Type) where
  | absent
  | unparsable
  | parsed (records : α)
deriving DecidableEq

namespace Bank

/-- The first `try` block of `_load_data`: an absent store yields an empty
registry; an unparsable store raises `json.JSONDecodeError`, which is not
caught (only `FileNotFoundError` is) and propagates. -/
def load_customers_store (s : FileState (List CustomerRecord)) :
    Except String (List Customer) :=
  match s with
  | .absent => .ok []
  | .unparsable => .error "JSONDecodeError"
  | .parsed rs => .ok (loadCustomers rs)

/-- The second `try` block of `_load_data`, for the account store. -/
def load_accounts_store (s : FileState (List AccountRecord)) :
    Except String (List Account) :=
  match s with
  | .absent => .ok []
  | .unparsable => .error "JSONDecodeError"
  | .parsed rs => .ok (loadAccounts rs)

/-- Model of `Bank.__init__`: start with empty registries and run `_load_data`; an
uncaught exception from either store aborts construction. -/
def construct (cf : FileState (List CustomerRecord))
    (af : FileState (List AccountRecord)) : Except String Bank :=
  match load_customers_store cf with
  | .error e => .error e
  | .ok cs =>
      match load_accounts_store af with
      | .error e => .error e
      | .ok accs => .ok ⟨cs, accs⟩

end Bank

/-! ## Basic facts about the account operations -/

theorem Account.deposit_kind (a : Account) (amt : ℚ) :
    ((a.deposit amt).1).kind = a.kind := by
  unfold Account.deposit; split <;> rfl

theorem Account.withdraw_kind (a : Account) (amt : ℚ) :
    ((a.withdraw amt).1).kind = a.kind := by
  unfold Account.withdraw
  cases hk : a.kind <;> simp only <;> split <;> simp [hk]

theorem Account.deposit_number (a : Account) (amt : ℚ) :
    ((a.deposit amt).1).account_number = a.account_number := by
  unfold Account.deposit; split <;> rfl

theorem Account.withdraw_number (a : Account) (amt : ℚ) :
    ((a.withdraw amt).1).account_number = a.account_number := by
  unfold Account.withdraw
  cases hk : a.kind <;> simp only <;> split <;> rfl

theorem Account.deposit_true_iff (a : Account) (amt : ℚ) :
    (a.deposit amt).2 = true ↔ 0 < amt := by
  unfold Account.deposit; split <;> simp_all

theorem Account.deposit_true_balance (a : Account) (amt : ℚ)
    (h : (a.deposit amt).2 = true) :
    ((a.deposit amt).1).balance = a.balance + amt := by
  unfold Account.deposit at *; split at h <;> simp_all

theorem Account.deposit_false_eq (a : Account) (amt : ℚ)
    (h : (a.deposit amt).2 = false) : (a.deposit amt).1 = a := by
  unfold Account.deposit at *; split <;> simp_all

theorem Account.withdraw_true_balance (a : Account) (amt : ℚ)
    (h : (a.withdraw amt).2 = true) :
    ((a.withdraw amt).1).balance = a.balance - amt := by
  rcases hk : a.kind with r | od <;>
    simp only [Account.withdraw, hk] at h ⊢ <;>
    split at h <;> simp_all

theorem Account.withdraw_false_eq (a : Account) (amt : ℚ)
    (h : (a.withdraw amt).2 = false) : (a.withdraw amt).1 = a := by
  rcases hk : a.kind with r | od <;>
    simp only [Account.withdraw, hk] at h ⊢ <;>
    split <;> simp_all

/-! ## C3: Checking withdraw policy -/

/-- C3: for a Checking account, `withdraw(amount)` succeeds iff
`balance - amount >= -overdraftLimit` (no positivity requirement on the
amount); on success the balance decreases by `amount` — so a non-positive
amount meeting the floor returns `True` and does not decrease the balance —
and on failure the account is unchanged. -/
theorem checking_withdraw_policy (a : Account) (od amount : ℚ)
    (hk : a.kind = AccountKind.checking od) :
    ((a.withdraw amount).2 = true ↔ a.balance - amount ≥ -od) ∧
    ((a.withdraw amount).2 = true →
      ((a.withdraw amount).1).balance = a.balance - amount) ∧
    ((a.withdraw amount).2 = false → (a.withdraw amount).1 = a) ∧
    (amount ≤ 0 → a.balance - amount ≥ -od →
      (a.withdraw amount).2 = true ∧
      a.balance ≤ ((a.withdraw amount).1).balance) := by
  refine ⟨?_, Account.withdraw_true_balance a amount,
    Account.withdraw_false_eq a amount, ?_⟩
  · unfold Account.withdraw
    rw [hk]; simp only
    split <;> simp_all
  · intro hle hfloor
    have ht : (a.withdraw amount).2 = true := by
      unfold Account.withdraw; rw [hk]; simp only
      split <;> simp_all
    refine ⟨ht, ?_⟩
    rw [Account.withdraw_true_balance a amount ht]
    linarith

/-- Witness for C3: a Checking account with balance 10, overdraft limit 5
and a withdrawal of -3 (the floor holds, so it succeeds and the balance
rises to 13). -/
theorem checking_withdraw_policy_witness :
    (Account.withdraw ⟨"A", "c", 10, .checking 5⟩ (-3)).2 = true ∧
    ((Account.withdraw ⟨"A", "c", 10, .checking 5⟩ (-3)).1).balance = 13 := by
  have h := checking_withdraw_policy ⟨"A", "c", 10, .checking 5⟩ 5 (-3) rfl
  refine ⟨(h.2.2.2 (by norm_num) (by norm_num)).1, ?_⟩
  rw [h.2.1 (h.2.2.2 (by norm_num) (by norm_num)).1]
  norm_num

/-! ## C4: Savings withdraw policy -/

/-- C4: for a Savings account, `withdraw(amount)` succeeds iff
`0 < amount <= balance`; on success the balance decreases by exactly the
amount, and when `amount <= 0` or `amount > balance` it returns `False` and
leaves the account unchanged. -/
theorem savings_withdraw_policy (a : Account) (r amount : ℚ)
    (hk : a.kind = AccountKind.savings r) :
    ((a.withdraw amount).2 = true ↔ 0 < amount ∧ amount ≤ a.balance) ∧
    ((a.withdraw amount).2 = true →
      ((a.withdraw amount).1).balance = a.balance - amount) ∧
    (amount ≤ 0 ∨ a.balance < amount →
      (a.withdraw amount).2 = false ∧ (a.withdraw amount).1 = a) := by
  have hiff : (a.withdraw amount).2 = true ↔ 0 < amount ∧ amount ≤ a.balance := by
    unfold Account.withdraw
    rw [hk]; simp only
    split <;> simp_all
  refine ⟨hiff, Account.withdraw_true_balance a amount, ?_⟩
  intro hbad
  have hf : (a.withdraw amount).2 = false := by
    rcases Bool.eq_false_or_eq_true (a.withdraw amount).2 with h | h
    · exfalso; rcases hiff.mp h with ⟨h1, h2⟩
      rcases hbad with h3 | h3 <;> linarith
    · exact h
  exact ⟨hf, Account.withdraw_false_eq a amount hf⟩

/-- Witness for C4: a Savings account with balance 10; withdrawing 4
succeeds and leaves 6, withdrawing 11 fails and changes nothing. -/
theorem savings_withdraw_policy_witness :
    (Account.withdraw ⟨"S", "c", 10, .savings (1/100)⟩ 4).2 = true ∧
    ((Account.withdraw ⟨"S", "c", 10, .savings (1/100)⟩ 4).1).balance = 6 ∧
    (Account.withdraw ⟨"S", "c", 10, .savings (1/100)⟩ 11).2 = false := by
  have h4 := savings_withdraw_policy ⟨"S", "c", 10, .savings (1/100)⟩ (1/100) 4 rfl
  have h11 := savings_withdraw_policy ⟨"S", "c", 10, .savings (1/100)⟩ (1/100) 11 rfl
  have ht : (Account.withdraw ⟨"S", "c", 10, .savings (1/100)⟩ 4).2 = true :=
    h4.1.mpr ⟨by norm_num, by norm_num⟩
  refine ⟨ht, ?_, (h11.2.2 (Or.inr (by norm_num))).1⟩
  rw [h4.2.1 ht]; norm_num

/-! ## C5: the per-variant balance invariant is inductive -/

theorem Account.deposit_invariant (a : Account) (amt : ℚ) (h : a.invariant) :
    ((a.deposit amt).1).invariant := by
  by_cases hp : amt > 0
  · rcases hk : a.kind with r | od <;>
      simp only [Account.deposit, Account.invariant, hk, if_pos hp] at h ⊢ <;>
      linarith
  · simp only [Account.deposit, if_neg hp]
    exact h

theorem Account.invariant_savings (a : Account) (r : ℚ)
    (hk : a.kind = AccountKind.savings r) : a.invariant ↔ 0 ≤ a.balance := by
  unfold Account.invariant; rw [hk]

theorem Account.invariant_checking (a : Account) (od : ℚ)
    (hk : a.kind = AccountKind.checking od) : a.invariant ↔ -od ≤ a.balance := by
  unfold Account.invariant; rw [hk]

theorem Account.withdraw_invariant (a : Account) (amt : ℚ) (h : a.invariant) :
    ((a.withdraw amt).1).invariant := by
  rcases hb : (a.withdraw amt).2 with _ | _
  · rw [Account.withdraw_false_eq a amt hb]; exact h
  · have hbal := Account.withdraw_true_balance a amt hb
    have hkind := Account.withdraw_kind a amt
    rcases hk : a.kind with r | od
    · have hcond : 0 < amt ∧ amt ≤ a.balance := by
        simp only [Account.withdraw, hk] at hb
        split at hb
        · assumption
        · exact absurd hb (by simp)
      rw [Account.invariant_savings _ r (by rw [hkind, hk]), hbal]
      linarith [hcond.2]
    · have hcond : a.balance - amt ≥ -od := by
        simp only [Account.withdraw, hk] at hb
        split at hb
        · assumption
        · exact absurd hb (by simp)
      rw [Account.invariant_checking _ od (by rw [hkind, hk]), hbal]
      linarith

/-- C5: starting from any account satisfying its variant invariant
(`balance >= 0` for Savings, `balance >= -overdraftLimit` for Checking),
any finite sequence of `deposit`/`withdraw` calls with arbitrary amounts
leaves the invariant satisfied. -/
theorem invariant_preserved_by_ops (a : Account) (ops : List AccountOp)
    (h : a.invariant) : (a.runOps ops).invariant := by
  induction ops generalizing a with
  | nil => simpa [Account.runOps] using h
  | cons op rest ih =>
      have hstep :
          (match op with
            | .depositOp amt => (a.deposit amt).1
            | .withdrawOp amt => (a.withdraw amt).1).invariant := by
        cases op with
        | depositOp amt => exact Account.deposit_invariant a amt h
        | withdrawOp amt => exact Account.withdraw_invariant a amt h
      simpa [Account.runOps] using ih _ hstep

/-- Witness for C5: a Checking account with overdraft limit 20 and balance
50 run through a mixed call sequence (including a failing withdrawal and a
rejected non-positive deposit) still satisfies `balance >= -20`. -/
theorem invariant_preserved_by_ops_witness :
    (Account.invariant ⟨"A", "c", 50, .checking 20⟩) ∧
    (Account.runOps ⟨"A", "c", 50, .checking 20⟩
      [.withdrawOp 60, .withdrawOp 15, .depositOp (-3), .depositOp 5,
       .withdrawOp 200]).invariant :=
  ⟨by decide,
   invariant_preserved_by_ops ⟨"A", "c", 50, .checking 20⟩
     [.withdrawOp 60, .withdrawOp 15, .depositOp (-3), .depositOp 5,
      .withdrawOp 200] (by decide)⟩

/-! ## C7: applyAllInterest -/

/-- C7: `apply_all_interest` rewrites the account registry pointwise:
every Savings balance becomes `balance * (1 + interestRate)`, every
Checking account is untouched, and no non-balance field (number, holder,
variant payload) of any account changes; customers are untouched. -/
theorem apply_all_interest_spec (b : Bank) :
    (b.apply_all_interest).accounts = b.accounts.map Account.apply_interest ∧
    (b.apply_all_interest).customers = b.customers ∧
    (∀ a : Account, ∀ r : ℚ, a.kind = AccountKind.savings r →
      a.apply_interest =
        { a with balance := a.balance * (1 + r) }) ∧
    (∀ a : Account, ∀ od : ℚ, a.kind = AccountKind.checking od →
      a.apply_interest = a) := by
  refine ⟨rfl, rfl, ?_, ?_⟩
  · intro a r hk
    simp only [Account.apply_interest, hk]
    have : a.balance + a.balance * r = a.balance * (1 + r) := by ring
    rw [this]
  · intro a od hk
    simp only [Account.apply_interest, hk]

/-- Witness for C7: a two-account bank; the Savings balance 100 at rate
1/20 becomes 105, the Checking balance stays 7. -/
theorem apply_all_interest_spec_witness :
    (Bank.apply_all_interest
        ⟨[], [⟨"S", "c", 100, .savings (1/20)⟩,
              ⟨"K", "c", 7, .checking 2⟩]⟩).accounts =
      [⟨"S", "c", 105, .savings (1/20)⟩, ⟨"K", "c", 7, .checking 2⟩] := by
  have h := apply_all_interest_spec
    ⟨[], [⟨"S", "c", 100, .savings (1/20)⟩, ⟨"K", "c", 7, .checking 2⟩]⟩
  rw [h.1]
  have hs := h.2.2.1 ⟨"S", "c", 100, .savings (1/20)⟩ (1/20) rfl
  have hk := h.2.2.2 ⟨"K", "c", 7, .checking 2⟩ 2 rfl
  simp only [List.map, hs, hk]
  norm_num

/-! ## Registry lemmas: `find?` after `setAccount` -/

theorem find_setAccount_same (l : List Account) (num : String) (a a2 : Account)
    (hf : l.find? (fun x => x.account_number == num) = some a)
    (h2 : a2.account_number = num) :
    (Bank.setAccount l num a2).find? (fun x => x.account_number == num)
      = some a2 := by
  induction l with
  | nil => simp [List.find?] at hf
  | cons hd tl ih =>
      by_cases hh : hd.account_number = num
      · simp only [Bank.setAccount, if_pos (beq_iff_eq.mpr hh)]
        exact @List.find?_cons_of_pos Account
          (fun x => x.account_number == num) a2 tl (beq_iff_eq.mpr h2)
      · have hb : ¬ (hd.account_number == num) = true := by
          simpa using hh
        simp only [Bank.setAccount, if_neg hb]
        rw [@List.find?_cons_of_neg Account
          (fun x => x.account_number == num) hd (Bank.setAccount tl num a2) hb]
        rw [@List.find?_cons_of_neg Account
          (fun x => x.account_number == num) hd tl hb] at hf
        exact ih hf

theorem find_setAccount_other (l : List Account) (num num' : String)
    (a2 : Account) (hne : num' ≠ num) (h2 : a2.account_number = num) :
    (Bank.setAccount l num a2).find? (fun x => x.account_number == num')
      = l.find? (fun x => x.account_number == num') := by
  induction l with
  | nil => rfl
  | cons hd tl ih =>
      by_cases hh : hd.account_number = num
      · simp only [Bank.setAccount, if_pos (beq_iff_eq.mpr hh)]
        have h2' : ¬ (a2.account_number == num') = true := by
          simp [h2, Ne.symm hne]
        have hh' : ¬ (hd.account_number == num') = true := by
          simp [hh, Ne.symm hne]
        rw [@List.find?_cons_of_neg Account
              (fun x => x.account_number == num') a2 tl h2',
            @List.find?_cons_of_neg Account
              (fun x => x.account_number == num') hd tl hh']
      · have hb : ¬ (hd.account_number == num) = true := by
          simpa using hh
        simp only [Bank.setAccount, if_neg hb]
        by_cases hh' : hd.account_number = num'
        · rw [@List.find?_cons_of_pos Account
                (fun x => x.account_number == num') hd
                (Bank.setAccount tl num a2) (beq_iff_eq.mpr hh'),
              @List.find?_cons_of_pos Account
                (fun x => x.account_number == num') hd tl
                (beq_iff_eq.mpr hh')]
        · have hb' : ¬ (hd.account_number == num') = true := by
            simpa using hh'
          rw [@List.find?_cons_of_neg Account
                (fun x => x.account_number == num') hd
                (Bank.setAccount tl num a2) hb',
              @List.find?_cons_of_neg Account
                (fun x => x.account_number == num') hd tl hb']
          exact ih

/-- The number under which `find?` located an account is that account's
own number. -/
theorem findAccount_number (b : Bank) (num : String) (a : Account)
    (hf : b.findAccount num = some a) : a.account_number = num := by
  have h := @List.find?_some Account
    (fun x => x.account_number == num) a b.accounts hf
  exact beq_iff_eq.mp h

/-! ## Characterizations of the registry-level deposit/withdraw -/

theorem Bank.withdrawIn_none (b : Bank) (num : String) (amount : ℚ)
    (hf : b.findAccount num = none) : b.withdrawIn num amount = (b, false) := by
  unfold Bank.withdrawIn
  rw [hf]

theorem Bank.withdrawIn_false (b : Bank) (num : String) (amount : ℚ)
    (a : Account) (hf : b.findAccount num = some a)
    (hw : (a.withdraw amount).2 = false) :
    b.withdrawIn num amount = (b, false) := by
  unfold Bank.withdrawIn
  rw [hf]
  simp [hw]

theorem Bank.withdrawIn_true (b : Bank) (num : String) (amount : ℚ)
    (a : Account) (hf : b.findAccount num = some a)
    (hw : (a.withdraw amount).2 = true) :
    b.withdrawIn num amount =
      ({ b with accounts :=
          Bank.setAccount b.accounts num (a.withdraw amount).1 }, true) := by
  unfold Bank.withdrawIn
  rw [hf]
  simp [hw]

theorem Bank.depositIn_none (b : Bank) (num : String) (amount : ℚ)
    (hf : b.findAccount num = none) : b.depositIn num amount = (b, false) := by
  unfold Bank.depositIn
  rw [hf]

theorem Bank.depositIn_false (b : Bank) (num : String) (amount : ℚ)
    (a : Account) (hf : b.findAccount num = some a)
    (hd : (a.deposit amount).2 = false) :
    b.depositIn num amount = (b, false) := by
  unfold Bank.depositIn
  rw [hf]
  simp [hd]

theorem Bank.depositIn_true (b : Bank) (num : String) (amount : ℚ)
    (a : Account) (hf : b.findAccount num = some a)
    (hd : (a.deposit amount).2 = true) :
    b.depositIn num amount =
      ({ b with accounts :=
          Bank.setAccount b.accounts num (a.deposit amount).1 }, true) := by
  unfold Bank.depositIn
  rw [hf]
  simp [hd]

theorem Bank.findAccount_set_same (b : Bank) (num : String) (a a2 : Account)
    (hf : b.findAccount num = some a) (h2 : a2.account_number = num) :
    Bank.findAccount
      { b with accounts := Bank.setAccount b.accounts num a2 } num
      = some a2 :=
  find_setAccount_same b.accounts num a a2 hf h2

theorem Bank.findAccount_set_other (b : Bank) (num num' : String)
    (a2 : Account) (hne : num' ≠ num) (h2 : a2.account_number = num) :
    Bank.findAccount
      { b with accounts := Bank.setAccount b.accounts num a2 } num'
      = b.findAccount num' :=
  find_setAccount_other b.accounts num num' a2 hne h2

/-! ## C2: successful transfer moves the amount and conserves the total -/

/-- C2: for distinct registered accounts, a transfer that returns `True`
leaves the source with its prior balance minus the amount, the destination
with its prior balance plus the amount, and conserves the two-account
total. -/
theorem transfer_funds_success_balances (b : Bank) (f t : String)
    (amount : ℚ) (hft : f ≠ t) (aF aT : Account)
    (hF : b.findAccount f = some aF) (hT : b.findAccount t = some aT)
    (hs : (b.transfer_funds f t amount).2 = true) :
    ((b.transfer_funds f t amount).1.findAccount f).map Account.balance
        = some (aF.balance - amount) ∧
    ((b.transfer_funds f t amount).1.findAccount t).map Account.balance
        = some (aT.balance + amount) ∧
    (aF.balance - amount) + (aT.balance + amount)
        = aF.balance + aT.balance := by
  have haFnum : aF.account_number = f := findAccount_number b f aF hF
  have haTnum : aT.account_number = t := findAccount_number b t aT hT
  cases hw : (aF.withdraw amount).2 with
  | false =>
      exfalso
      simp [Bank.transfer_funds, hF, hT,
        Bank.withdrawIn_false b f amount aF hF hw] at hs
  | true =>
      have hw1 := Bank.withdrawIn_true b f amount aF hF hw
      have haF1num : (aF.withdraw amount).1.account_number = f := by
        rw [Account.withdraw_number]; exact haFnum
      have hb1T :
          Bank.findAccount
            { b with accounts :=
                Bank.setAccount b.accounts f (aF.withdraw amount).1 } t
            = some aT := by
        rw [Bank.findAccount_set_other b f t (aF.withdraw amount).1
          (Ne.symm hft) haF1num, hT]
      cases hd : (aT.deposit amount).2 with
      | false =>
          exfalso
          simp [Bank.transfer_funds, hF, hT, hw1,
            Bank.depositIn_false _ t amount aT hb1T hd] at hs
      | true =>
          have hd1 := Bank.depositIn_true _ t amount aT hb1T hd
          have htr : b.transfer_funds f t amount =
              ({ customers := b.customers,
                 accounts := Bank.setAccount
                   (Bank.setAccount b.accounts f (aF.withdraw amount).1)
                   t (aT.deposit amount).1 }, true) := by
            simp only [Bank.transfer_funds, hF, hT, Option.isSome_some,
              and_self, if_true, hw1, hd1]
          have haT1num : (aT.deposit amount).1.account_number = t := by
            rw [Account.deposit_number]; exact haTnum
          refine ⟨?_, ?_, by ring⟩
          · rw [htr]
            have hfind :
                Bank.findAccount
                  { customers := b.customers,
                    accounts := Bank.setAccount
                      (Bank.setAccount b.accounts f (aF.withdraw amount).1)
                      t (aT.deposit amount).1 } f
                = some (aF.withdraw amount).1 := by
              have hstep := Bank.findAccount_set_other
                { b with accounts :=
                    Bank.setAccount b.accounts f (aF.withdraw amount).1 }
                t f (aT.deposit amount).1 hft haT1num
              rw [hstep]
              exact Bank.findAccount_set_same b f aF (aF.withdraw amount).1
                hF haF1num
            rw [hfind]
            simp only [Option.map_some']
            rw [Account.withdraw_true_balance aF amount hw]
          · rw [htr]
            have hfind :
                Bank.findAccount
                  { customers := b.customers,
                    accounts := Bank.setAccount
                      (Bank.setAccount b.accounts f (aF.withdraw amount).1)
                      t (aT.deposit amount).1 } t
                = some (aT.deposit amount).1 :=
              Bank.findAccount_set_same
                { b with accounts :=
                    Bank.setAccount b.accounts f (aF.withdraw amount).1 }
                t aT (aT.deposit amount).1 hb1T haT1num
            rw [hfind]
            simp only [Option.map_some']
            rw [Account.deposit_true_balance aT amount hd]

/-- A concrete two-account ledger for exercising the transfer theorems:
a Savings account `A` with balance 100 and a Checking account `B` with
balance 0. -/
def exBankAB : Bank :=
  ⟨[⟨"c1", "n", "addr", ["A", "B"]⟩],
   [⟨"A", "c1", 100, .savings 0⟩, ⟨"B", "c1", 0, .checking 0⟩]⟩

/-- Witness for C2: transferring 30 from `A` (balance 100) to `B`
(balance 0) in `exBankAB` succeeds, leaving 70 and 30. -/
theorem transfer_funds_success_balances_witness :
    ((exBankAB.transfer_funds "A" "B" 30).1.findAccount "A").map
        Account.balance = some 70 ∧
    ((exBankAB.transfer_funds "A" "B" 30).1.findAccount "B").map
        Account.balance = some 30 := by
  have h := transfer_funds_success_balances exBankAB "A" "B" 30
    (by decide) ⟨"A", "c1", 100, .savings 0⟩ ⟨"B", "c1", 0, .checking 0⟩
    rfl rfl rfl
  constructor
  · rw [h.1]; norm_num
  · rw [h.2.1]; norm_num

/-! ## C1: failed transfer and the source balance -/

theorem Account.deposit_nonpos_false (a : Account) (amt : ℚ) (h : amt ≤ 0) :
    (a.deposit amt).2 = false := by
  unfold Account.deposit
  rw [if_neg (not_lt.mpr h)]

/-- C1 (amended): for a strictly positive amount, a transfer that returns
`False` leaves the source account's balance unchanged (for such amounts the
destination deposit can never fail, so failure means nothing was ever
withdrawn). -/
theorem transfer_failure_source_unchanged_pos (b : Bank) (f t : String)
    (amount : ℚ) (hpos : 0 < amount)
    (hfail : (b.transfer_funds f t amount).2 = false) :
    ((b.transfer_funds f t amount).1.findAccount f).map Account.balance
      = (b.findAccount f).map Account.balance := by
  cases hF : b.findAccount f with
  | none =>
      have htr : b.transfer_funds f t amount = (b, false) := by
        simp [Bank.transfer_funds, hF]
      rw [htr]; simp [hF]
  | some aF =>
      cases hT : b.findAccount t with
      | none =>
          have htr : b.transfer_funds f t amount = (b, false) := by
            simp [Bank.transfer_funds, hT]
          rw [htr]; simp [hF]
      | some aT =>
          cases hw : (aF.withdraw amount).2 with
          | false =>
              have htr : b.transfer_funds f t amount = (b, false) := by
                simp [Bank.transfer_funds, hF, hT,
                  Bank.withdrawIn_false b f amount aF hF hw]
              rw [htr]; simp [hF]
          | true =>
              exfalso
              have hw1 := Bank.withdrawIn_true b f amount aF hF hw
              have haFnum : aF.account_number = f := findAccount_number b f aF hF
              have haF1num : (aF.withdraw amount).1.account_number = f := by
                rw [Account.withdraw_number]; exact haFnum
              by_cases htf : t = f
              · subst htf
                have hfind :
                    Bank.findAccount
                      { b with accounts :=
                          Bank.setAccount b.accounts t (aF.withdraw amount).1 } t
                      = some (aF.withdraw amount).1 :=
                  Bank.findAccount_set_same b t aF _ hF haF1num
                have hdep := Bank.depositIn_true _ t amount _ hfind
                  ((Account.deposit_true_iff _ amount).mpr hpos)
                simp [Bank.transfer_funds, hF, hw1, hdep] at hfail
              · have hfind :
                    Bank.findAccount
                      { b with accounts :=
                          Bank.setAccount b.accounts f (aF.withdraw amount).1 } t
                      = some aT := by
                  rw [Bank.findAccount_set_other b f t _ htf haF1num, hT]
                have hdep := Bank.depositIn_true _ t amount aT hfind
                  ((Account.deposit_true_iff aT amount).mpr hpos)
                simp [Bank.transfer_funds, hF, hT, hw1, hdep] at hfail

/-- Witness for the amended C1: transferring 30 from `A` to the missing
account `X` fails and leaves `A`'s balance as it was. -/
theorem transfer_failure_source_unchanged_pos_witness :
    ((exBankAB.transfer_funds "A" "X" 30).1.findAccount "A").map
        Account.balance
      = (exBankAB.findAccount "A").map Account.balance :=
  transfer_failure_source_unchanged_pos exBankAB "A" "X" 30
    (by norm_num) rfl

/-- The C1 counterexample ledger: two Checking accounts `A` and `B`, both
with balance 0 and overdraft limit 0. -/
def exBankC1 : Bank :=
  ⟨[⟨"c1", "n", "addr", ["A", "B"]⟩],
   [⟨"A", "c1", 0, .checking 0⟩, ⟨"B", "c1", 0, .checking 0⟩]⟩

/-- The source account of `exBankC1` after the negative-amount withdraw
that `transferFunds("A", "B", -5)` performs. -/
def exA1 : Account := ((⟨"A", "c1", 0, .checking 0⟩ : Account).withdraw (-5)).1

/-- The registry state of `exBankC1` right after that withdraw. -/
def exBankC1w : Bank :=
  { exBankC1 with accounts := Bank.setAccount exBankC1.accounts "A" exA1 }

/-- Counterexample to C1 as stated: `transferFunds("A", "B", -5)` on
`exBankC1` returns `False`, yet the source balance has changed from 0 to 5:
the Checking withdraw accepts the negative amount (crediting the source),
the destination deposit rejects it, and the compensating rollback deposit
of the same negative amount is itself rejected, so the source stays
credited. -/
theorem transfer_failure_changes_source_cex :
    (exBankC1.transfer_funds "A" "B" (-5)).2 = false ∧
    ((exBankC1.transfer_funds "A" "B" (-5)).1.findAccount "A").map
        Account.balance = some 5 ∧
    (exBankC1.findAccount "A").map Account.balance = some 0 := by
  have hw : ((⟨"A", "c1", 0, .checking 0⟩ : Account).withdraw (-5)).2
      = true := by
    unfold Account.withdraw
    dsimp only
    rw [if_pos (by norm_num : (0:ℚ) - (-5) ≥ -0)]
  have hF : exBankC1.findAccount "A"
      = some ⟨"A", "c1", 0, .checking 0⟩ := rfl
  have hT : exBankC1.findAccount "B"
      = some ⟨"B", "c1", 0, .checking 0⟩ := rfl
  have hw1 : exBankC1.withdrawIn "A" (-5) = (exBankC1w, true) :=
    Bank.withdrawIn_true exBankC1 "A" (-5) _ hF hw
  have ha1num : exA1.account_number = "A" := Account.withdraw_number _ _
  have hfindB : exBankC1w.findAccount "B"
      = some ⟨"B", "c1", 0, .checking 0⟩ := by
    have h := Bank.findAccount_set_other exBankC1 "A" "B" exA1
      (by decide) ha1num
    rw [hT] at h
    exact h
  have hdB : exBankC1w.depositIn "B" (-5) = (exBankC1w, false) :=
    Bank.depositIn_false _ "B" (-5) _ hfindB
      (Account.deposit_nonpos_false _ _ (by norm_num))
  have hfindA : exBankC1w.findAccount "A" = some exA1 :=
    Bank.findAccount_set_same exBankC1 "A" _ _ hF ha1num
  have hroll : exBankC1w.depositIn "A" (-5) = (exBankC1w, false) :=
    Bank.depositIn_false _ "A" (-5) _ hfindA
      (Account.deposit_nonpos_false _ _ (by norm_num))
  have htr : exBankC1.transfer_funds "A" "B" (-5) = (exBankC1w, false) := by
    simp only [Bank.transfer_funds, hF, hT, Option.isSome_some, and_self,
      if_true, hw1, hdB, hroll]
    simp
  refine ⟨by rw [htr], ?_, rfl⟩
  rw [htr]
  show (exBankC1w.findAccount "A").map Account.balance = some 5
  rw [hfindA]
  simp only [Option.map_some']
  show some (((⟨"A", "c1", 0, .checking 0⟩ : Account).withdraw (-5)).1.balance)
    = some 5
  rw [Account.withdraw_true_balance _ _ hw]
  norm_num

/-! ## C10: same-account transfer -/

/-- C10: for a registered account and a strictly positive amount its
withdraw accepts, transferring from the account to itself returns `True`
and leaves the balance unchanged (the deposit lands on the post-withdraw
state of the very same registry slot). -/
theorem transfer_funds_self (b : Bank) (f : String) (amount : ℚ)
    (a : Account) (hF : b.findAccount f = some a) (hpos : 0 < amount)
    (hw : (a.withdraw amount).2 = true) :
    (b.transfer_funds f f amount).2 = true ∧
    ((b.transfer_funds f f amount).1.findAccount f).map Account.balance
      = some a.balance := by
  have hanum : a.account_number = f := findAccount_number b f a hF
  have ha1num : (a.withdraw amount).1.account_number = f := by
    rw [Account.withdraw_number]; exact hanum
  have hw1 := Bank.withdrawIn_true b f amount a hF hw
  have hfind1 :
      Bank.findAccount
        { b with accounts :=
            Bank.setAccount b.accounts f (a.withdraw amount).1 } f
        = some (a.withdraw amount).1 :=
    Bank.findAccount_set_same b f a _ hF ha1num
  have hdep : ((a.withdraw amount).1.deposit amount).2 = true :=
    (Account.deposit_true_iff _ amount).mpr hpos
  have hd1 := Bank.depositIn_true _ f amount _ hfind1 hdep
  have htr : b.transfer_funds f f amount =
      ({ customers := b.customers,
         accounts := Bank.setAccount
           (Bank.setAccount b.accounts f (a.withdraw amount).1) f
           ((a.withdraw amount).1.deposit amount).1 }, true) := by
    simp only [Bank.transfer_funds, hF, Option.isSome_some, and_self,
      if_true, hw1, hd1]
  have ha2num :
      ((a.withdraw amount).1.deposit amount).1.account_number = f := by
    rw [Account.deposit_number]; exact ha1num
  refine ⟨by rw [htr], ?_⟩
  rw [htr]
  have hfind2 :
      Bank.findAccount
        { customers := b.customers,
          accounts := Bank.setAccount
            (Bank.setAccount b.accounts f (a.withdraw amount).1) f
            ((a.withdraw amount).1.deposit amount).1 } f
        = some ((a.withdraw amount).1.deposit amount).1 :=
    Bank.findAccount_set_same
      { b with accounts := Bank.setAccount b.accounts f (a.withdraw amount).1 }
      f (a.withdraw amount).1 _ hfind1 ha2num
  rw [hfind2]
  simp only [Option.map_some']
  rw [Account.deposit_true_balance _ amount hdep,
    Account.withdraw_true_balance a amount hw]
  rw [sub_add_cancel]

/-- Witness for C10: transferring 30 from `A` to `A` in `exBankAB`
succeeds and leaves the balance at 100. -/
theorem transfer_funds_self_witness :
    (exBankAB.transfer_funds "A" "A" 30).2 = true ∧
    ((exBankAB.transfer_funds "A" "A" 30).1.findAccount "A").map
        Account.balance = some 100 :=
  transfer_funds_self exBankAB "A" 30 ⟨"A", "c1", 100, .savings 0⟩
    rfl (by norm_num) (by decide)

/-! ## C8: construction under absent or unreadable stores -/

/-- Counterexample to C8 as stated: an unreadable (present but not
parseable) customer store does NOT yield an empty registry — only
`FileNotFoundError` is caught in `_load_data`, so the JSON decode error
propagates and construction fails. -/
theorem construct_unreadable_fails_cex :
    Bank.construct FileState.unparsable FileState.absent
      = Except.error "JSONDecodeError" := rfl

/-- C8 (amended): an ABSENT store starts the corresponding registry empty
and absence alone never fails construction; a present-but-unparseable
store, by contrast, always aborts construction with the decode error. -/
theorem construct_absent_empty_spec :
    Bank.construct FileState.absent FileState.absent
        = Except.ok ⟨[], []⟩ ∧
    (∀ rs : List AccountRecord,
      Bank.construct FileState.absent (FileState.parsed rs)
        = Except.ok ⟨[], Bank.loadAccounts rs⟩) ∧
    (∀ rs : List CustomerRecord,
      Bank.construct (FileState.parsed rs) FileState.absent
        = Except.ok ⟨Bank.loadCustomers rs, []⟩) ∧
    (∀ af : FileState (List AccountRecord),
      Bank.construct FileState.unparsable af
        = Except.error "JSONDecodeError") ∧
    (∀ cf : FileState (List CustomerRecord),
      Bank.construct cf FileState.unparsable
        = Except.error "JSONDecodeError") := by
  refine ⟨rfl, fun rs => rfl, fun rs => rfl, fun af => rfl, fun cf => ?_⟩
  cases cf <;> rfl

/-! ## C9: createAccount validates nothing about the initial balance -/

theorem find_assignAccount (l : List Account) (a : Account) :
    (Bank.assignAccount l a).find?
        (fun x => x.account_number == a.account_number) = some a := by
  unfold Bank.assignAccount
  split
  · rename_i hany
    have hsome :
        (l.find? (fun x => x.account_number == a.account_number)).isSome := by
      rw [List.find?_isSome]
      simpa [List.any_eq_true] using hany
    obtain ⟨a0, ha0⟩ := Option.isSome_iff_exists.mp hsome
    exact find_setAccount_same l a.account_number a0 a ha0 rfl
  · rename_i hany
    have hnone :
        l.find? (fun x => x.account_number == a.account_number) = none := by
      rw [List.find?_eq_none]
      intro x hx hpx
      exact hany (List.any_eq_true.mpr ⟨x, hx, hpx⟩)
    rw [List.find?_append, hnone, Option.none_or]
    exact List.find?_cons_of_pos [] (by simp)

/-- C9: for a registered customer and a recognized variant string,
`create_account` succeeds for EVERY initial balance — no validation is
performed, so a Savings account may be created with a negative balance and
a Checking account below its overdraft floor — and the created account is
registered under the fresh number carrying exactly that balance. -/
theorem create_account_no_validation (b : Bank) (fresh cid ty : String)
    (bal : ℚ) (rate? od? : Option ℚ)
    (hc : (b.findCustomer cid).isSome = true)
    (hty : ty = "savings" ∨ ty = "checking") :
    ∃ acct : Account,
      (b.create_account fresh cid ty bal rate? od?).2 = some acct ∧
      acct.balance = bal ∧ acct.account_number = fresh ∧
      acct.account_holder_id = cid ∧
      (b.create_account fresh cid ty bal rate? od?).1.findAccount fresh
        = some acct := by
  rcases hty with hty | hty <;> subst hty
  · refine ⟨⟨fresh, cid, bal, .savings (rate?.getD (1/100))⟩, ?_, rfl, rfl, rfl, ?_⟩
    · simp [Bank.create_account, hc]
    · simp only [Bank.create_account, hc, if_true]
      show Bank.findAccount
        { customers := _, accounts := Bank.assignAccount b.accounts
            ⟨fresh, cid, bal, .savings (rate?.getD (1/100))⟩ } fresh = _
      exact find_assignAccount b.accounts
        ⟨fresh, cid, bal, .savings (rate?.getD (1/100))⟩
  · refine ⟨⟨fresh, cid, bal, .checking (od?.getD 0)⟩, ?_, rfl, rfl, rfl, ?_⟩
    · simp [Bank.create_account, hc]
    · simp only [Bank.create_account, hc, if_true]
      show Bank.findAccount
        { customers := _, accounts := Bank.assignAccount b.accounts
            ⟨fresh, cid, bal, .checking (od?.getD 0)⟩ } fresh = _
      exact find_assignAccount b.accounts
        ⟨fresh, cid, bal, .checking (od?.getD 0)⟩

/-- A single-customer ledger with no accounts, for the creation witness. -/
def exBankCust : Bank := ⟨[⟨"c1", "n", "addr", []⟩], []⟩

/-- Witness for C9: creating a savings account with initial balance -50
(violating the Savings invariant `balance >= 0`) succeeds and registers
that balance. -/
theorem create_account_no_validation_witness :
    ∃ acct : Account,
      (exBankCust.create_account "N" "c1" "savings" (-50)
          (some 0) none).2 = some acct ∧
      acct.balance = -50 ∧ acct.account_number = "N" ∧
      acct.account_holder_id = "c1" ∧
      (exBankCust.create_account "N" "c1" "savings" (-50)
          (some 0) none).1.findAccount "N" = some acct :=
  create_account_no_validation exBankCust "N" "c1" "savings" (-50)
    (some 0) none (by decide) (Or.inl rfl)

/-! ## C6: persistence round trip -/

theorem Customer.add_account_number_not_mem (c : Customer) (n : String)
    (h : n ∉ c.account_numbers) :
    c.add_account_number n
      = { c with account_numbers := c.account_numbers ++ [n] } := by
  unfold Customer.add_account_number
  rw [if_neg h]

theorem foldl_add_account_number (ns : List String) (c : Customer)
    (h : (c.account_numbers ++ ns).Nodup) :
    ns.foldl Customer.add_account_number c =
      { c with account_numbers := c.account_numbers ++ ns } := by
  induction ns generalizing c with
  | nil => simp
  | cons n rest ih =>
      have hsplit := List.nodup_append.mp h
      have hn : n ∉ c.account_numbers := fun hmem =>
        hsplit.2.2 hmem (List.mem_cons_self n rest)
      simp only [List.foldl_cons]
      rw [Customer.add_account_number_not_mem c n hn]
      rw [ih { c with account_numbers := c.account_numbers ++ [n] }
        (by simpa [List.append_assoc] using h)]
      simp

theorem loadCustomer_to_dict (c : Customer) (h : c.account_numbers.Nodup) :
    Bank.loadCustomer c.to_dict = c := by
  unfold Bank.loadCustomer Customer.to_dict
  dsimp only [Option.getD]
  rw [foldl_add_account_number c.account_numbers
    ⟨c.customer_id, c.name, c.address, []⟩ (by simpa using h)]
  simp

theorem assignCustomer_append (l : List Customer) (c : Customer)
    (h : ∀ x ∈ l, x.customer_id ≠ c.customer_id) :
    Bank.assignCustomer l c = l ++ [c] := by
  unfold Bank.assignCustomer
  rw [if_neg]
  intro hany
  rcases List.any_eq_true.mp hany with ⟨x, hx, hpx⟩
  exact h x hx (by simpa using hpx)

theorem assignAccount_append (l : List Account) (a : Account)
    (h : ∀ x ∈ l, x.account_number ≠ a.account_number) :
    Bank.assignAccount l a = l ++ [a] := by
  unfold Bank.assignAccount
  rw [if_neg]
  intro hany
  rcases List.any_eq_true.mp hany with ⟨x, hx, hpx⟩
  exact h x hx (by simpa using hpx)

theorem loadAccount_to_dict (a : Account) :
    Bank.loadAccount a.to_dict = some a := by
  obtain ⟨n, hid, bal, k⟩ := a
  cases k <;> rfl

theorem loadCustomers_aux (cs : List Customer) (acc : List Customer)
    (hdisj : ∀ x ∈ acc, ∀ y ∈ cs, x.customer_id ≠ y.customer_id)
    (hids : (cs.map Customer.customer_id).Nodup)
    (hacc : ∀ c ∈ cs, c.account_numbers.Nodup) :
    (cs.map Customer.to_dict).foldl
      (fun l r => Bank.assignCustomer l (Bank.loadCustomer r)) acc
      = acc ++ cs := by
  induction cs generalizing acc with
  | nil => simp
  | cons c rest ih =>
      rw [List.map_cons, List.nodup_cons] at hids
      obtain ⟨hcid, hrest⟩ := hids
      simp only [List.map_cons, List.foldl_cons]
      rw [loadCustomer_to_dict c (hacc c (List.mem_cons_self c rest))]
      rw [assignCustomer_append acc c
        (fun x hx => hdisj x hx c (List.mem_cons_self c rest))]
      rw [ih (acc ++ [c]) ?_ hrest
        (fun c' hc' => hacc c' (List.mem_cons_of_mem c hc'))]
      · simp
      · intro x hx y hy
        rcases List.mem_append.mp hx with hx' | hx'
        · exact hdisj x hx' y (List.mem_cons_of_mem c hy)
        · have hxc : x = c := by simpa using hx'
          subst hxc
          intro heq
          exact hcid (heq ▸ List.mem_map_of_mem Customer.customer_id hy)

theorem loadAccounts_aux (accts : List Account) (acc : List Account)
    (hdisj : ∀ x ∈ acc, ∀ y ∈ accts, x.account_number ≠ y.account_number)
    (hids : (accts.map Account.account_number).Nodup) :
    (accts.map Account.to_dict).foldl
      (fun l r =>
        match Bank.loadAccount r with
        | some a => Bank.assignAccount l a
        | none => l) acc
      = acc ++ accts := by
  induction accts generalizing acc with
  | nil => simp
  | cons a rest ih =>
      rw [List.map_cons, List.nodup_cons] at hids
      obtain ⟨haid, hrest⟩ := hids
      simp only [List.map_cons, List.foldl_cons, loadAccount_to_dict a]
      rw [assignAccount_append acc a
        (fun x hx => hdisj x hx a (List.mem_cons_self a rest))]
      rw [ih (acc ++ [a]) ?_ hrest]
      · simp
      · intro x hx y hy
        rcases List.mem_append.mp hx with hx' | hx'
        · exact hdisj x hx' y (List.mem_cons_of_mem a hy)
        · have hxa : x = a := by simpa using hx'
          subst hxa
          intro heq
          exact haid (heq ▸ List.mem_map_of_mem Account.account_number hy)

/-- C6: serializing the two registries with `to_dict` (`_save_data`) and
decoding the records back (`_load_data` on parsed stores) reconstructs the
very same Ledger — same customer ids, names, addresses and account-number
lists, and same account numbers, holders, balances and variant payloads —
for every ledger state whose registries are well-keyed (pairwise distinct
customer ids and account numbers, duplicate-free per-customer account-number
lists), which holds for every state the program can build. -/
theorem save_load_round_trip (b : Bank)
    (hcids : (b.customers.map Customer.customer_id).Nodup)
    (haids : (b.accounts.map Account.account_number).Nodup)
    (hacc : ∀ c ∈ b.customers, c.account_numbers.Nodup) :
    Bank.construct (FileState.parsed (b.save_data).1)
        (FileState.parsed (b.save_data).2) = Except.ok b := by
  have h1 : Bank.loadCustomers (b.save_data).1 = b.customers := by
    show Bank.loadCustomers (b.customers.map Customer.to_dict) = b.customers
    unfold Bank.loadCustomers
    simpa using loadCustomers_aux b.customers []
      (by intro x hx; exact absurd hx (List.not_mem_nil x)) hcids hacc
  have h2 : Bank.loadAccounts (b.save_data).2 = b.accounts := by
    show Bank.loadAccounts (b.accounts.map Account.to_dict) = b.accounts
    unfold Bank.loadAccounts
    simpa using loadAccounts_aux b.accounts []
      (by intro x hx; exact absurd hx (List.not_mem_nil x)) haids
  show Except.ok ⟨Bank.loadCustomers (b.save_data).1,
      Bank.loadAccounts (b.save_data).2⟩ = Except.ok b
  rw [h1, h2]

/-- A well-keyed two-customer, two-account ledger for the round-trip
witness. -/
def exBankRT : Bank :=
  ⟨[⟨"c1", "alice", "a st", ["A", "B"]⟩, ⟨"c2", "bob", "b st", []⟩],
   [⟨"A", "c1", 100, .savings 0⟩, ⟨"B", "c1", -10, .checking 20⟩]⟩

/-- Witness for C6: the round trip reproduces `exBankRT` exactly. -/
theorem save_load_round_trip_witness :
    Bank.construct (FileState.parsed (exBankRT.save_data).1)
        (FileState.parsed (exBankRT.save_data).2) = Except.ok exBankRT :=
  save_load_round_trip exBankRT (by decide) (by decide) (by decide)
